import Mathlib

/-!
Verification of the JP_Radio_Act_jasonld core against its specification.

The development shallowly embeds the two modules the claims are about:

* `src/diff_checker.py` — the per-source diff engine
  (`LawDiffChecker.check_japanese_law_diff` / `check_english_law_diff` /
  `check_all_diffs` and the helpers `_calculate_file_hash`,
  `_download_file`, `_normalize_xml`, `_extract_metadata`).
* `src/eli_converter.py` — the ELI conversion pipeline
  (`ELIConverter.create_structured_xml` via
  `_extract_articles_from_japanese`, `add_translation_links` via
  `_link_english_translations`, `convert_to_json_ld` via
  `_extract_articles_json_ld` and `_extract_metadata_from_xml`).

External library behaviour (XML parsing by `xml.etree`/`lxml`, pretty
printing by `minidom.toprettyxml`, MD5 hashing by `hashlib`) is abstracted
into an `XmlLib` record of opaque-but-pure functions; everything the
repository's own code does (branching, markers, dictionary diffs, fallback
rules, join policy) is embedded concretely.
-/

namespace JPRadioAct

/-! ## Model of parsed XML as seen by `diff_checker._extract_metadata`

`_extract_metadata` iterates `root.iter()` and looks only at each element's
tag and text, so a parsed document is modelled as the list of its elements
(in document order), each carrying its tag and optional text. -/

/-- Python `str.endswith`, modelled on the character list (kernel-reducible,
unlike `String.endsWith`). -/
def strEndsWith (s suffix : String) : Bool :=
  List.isSuffixOf suffix.data s.data

/-- Whitespace as stripped by Python `str.strip()` (restricted to the
ASCII whitespace occurring in the documents). -/
def isSpaceChar (c : Char) : Bool :=
  c = ' ' ∨ c = '\t' ∨ c = '\n' ∨ c = '\r'

/-- Python `str.strip()`: drop leading and trailing whitespace. -/
def pyStrip (s : String) : String :=
  String.mk (((s.data.dropWhile isSpaceChar).reverse.dropWhile isSpaceChar).reverse)

def digitsToNat? (cs : List Char) : Option Nat :=
  match cs with
  | [] => none
  | _ =>
    cs.foldl
      (fun acc c =>
        match acc with
        | none => none
        | some n =>
          if 48 ≤ c.toNat ∧ c.toNat ≤ 57 then some (n * 10 + (c.toNat - 48)) else none)
      (some 0)

/-- Python `int(str)` on plain decimal strings (optional sign, digits);
`none` models the `ValueError` on anything else. -/
def pyInt? (s : String) : Option Int :=
  match s.data with
  | [] => none
  | c :: rest =>
    if c = '-' then (digitsToNat? rest).map fun n => -(n : Int)
    else if c = '+' then (digitsToNat? rest).map fun n => (n : Int)
    else (digitsToNat? (c :: rest)).map fun n => (n : Int)

structure XElem where
  tag : String
  text : Option String
deriving Repr, DecidableEq

abbrev XDoc := List XElem

/-- Abstraction of the XML/hash libraries used by `diff_checker.py`:
`parse` models `ET.parse` (`none` = parse error, the `except` branches),
`pretty` models `minidom.parseString(..).toprettyxml(..)` together with the
BOM/CRLF cleanup in `_normalize_xml`, and `md5hex` models
`hashlib.md5(..).hexdigest()` as used by `_calculate_file_hash` on an
existing file.  An MD5 hex digest is a 32-character string, hence never
empty, which is the `md5hex_ne_empty` field. -/
structure XmlLib (Content : Type) where
  parse : Content → Option XDoc
  pretty : XDoc → Content
  md5hex : Content → String
  md5hex_ne_empty : ∀ c, md5hex c ≠ ""

/-- State of the per-source files inside `data_dir`:
`snapshot` is `RadioAct_xx.xml` (the diff baseline), `temp` is
`RadioAct_xx_temp.xml` (written by `_download_file`), `normTemp` is
`RadioAct_xx_temp.normalized.xml` (written by `_normalize_xml`).
`none` means the file does not exist. -/
structure SourceFs (Content : Type) where
  snapshot : Option Content
  temp : Option Content
  normTemp : Option Content
deriving Repr, DecidableEq

/-- Embedding of the `DiffResult` dataclass of `diff_checker.py`. -/
structure DiffResult where
  source : String
  timestamp : String
  has_changes : Bool
  old_hash : Option String
  new_hash : Option String
  changes : List String
  error : Option String
deriving Repr, DecidableEq

/-! ## `_extract_metadata` -/

/-- The four metadata dictionary keys `_extract_metadata` can produce. -/
inductive MetaKey where
  | law_number
  | law_name
  | enact_date
  | enforcement_date
deriving Repr, DecidableEq

def MetaKey.keyName : MetaKey → String
  | .law_number => "law_number"
  | .law_name => "law_name"
  | .enact_date => "enact_date"
  | .enforcement_date => "enforcement_date"

/-- The metadata dictionary built by `_extract_metadata`.  A field is
`none` when the key is absent from the dictionary and `some t` when the
key is present with value `t` (where `t` itself is `none` when the
element's text was Python `None`). -/
structure DiffMetadata where
  law_number : Option (Option String)
  law_name : Option (Option String)
  enact_date : Option (Option String)
  enforcement_date : Option (Option String)
deriving Repr, DecidableEq

def emptyDiffMetadata : DiffMetadata := ⟨none, none, none, none⟩

def DiffMetadata.raw (m : DiffMetadata) : MetaKey → Option (Option String)
  | .law_number => m.law_number
  | .law_name => m.law_name
  | .enact_date => m.enact_date
  | .enforcement_date => m.enforcement_date

/-- Python `dict.get(key)`: `None` both when the key is absent and when it
is present with value `None`. -/
def DiffMetadata.get (m : DiffMetadata) (k : MetaKey) : Option String :=
  (m.raw k).getD none

/-- One step of the `for elem in root.iter()` loop of `_extract_metadata`:
the `elif` chain on tag suffixes, assignment overwriting (last seen wins). -/
def metaStep (m : DiffMetadata) (e : XElem) : DiffMetadata :=
  if strEndsWith e.tag "LawNum" then { m with law_number := some e.text }
  else if strEndsWith e.tag "LawName" then { m with law_name := some e.text }
  else if strEndsWith e.tag "EnactDate" then { m with enact_date := some e.text }
  else if strEndsWith e.tag "EnforcementDate" then { m with enforcement_date := some e.text }
  else m

def extractMetadataDoc (doc : XDoc) : DiffMetadata :=
  doc.foldl metaStep emptyDiffMetadata

/-- `_extract_metadata` on file content: parse failure is caught and yields
the empty dictionary (`except` branch returning `{}`). -/
def extractMetadataC {Content : Type} (lib : XmlLib Content) (c : Content) : DiffMetadata :=
  match lib.parse c with
  | some doc => extractMetadataDoc doc
  | none => emptyDiffMetadata

/-! ## `_normalize_xml` -/

/-- Content written to the normalized file by `_normalize_xml`; on a parse
error the function returns the input path unchanged (`except` branch). -/
def normalizeXml {Content : Type} (lib : XmlLib Content) (c : Content) : Content :=
  match lib.parse c with
  | some doc => lib.pretty doc
  | none => c

/-! ## The diff run -/

/-- The fixed marker strings appended to `DiffResult.changes` / `error`. -/
def hashChangedMsg : String := "ハッシュ値が変更されました"

def noChangesMsg : String := "変更なし"

def initialDownloadMsg : String := "初回ダウンロード"

def downloadFailedMsg : String := "ダウンロードに失敗"

/-- Python `str` rendering of an optional string inside an f-string:
`None` prints as `"None"`. -/
def pyStr : Option String → String
  | some s => s
  | none => "None"

/-- A single quote character, written via its code point. -/
def sq : String := String.mk [Char.ofNat 39]

/-- The f-string `f"メタデータ '{key}' が変更: {old} → {new}"`. -/
def metaChangeMsg (k : MetaKey) (o n : Option String) : String :=
  "メタデータ " ++ sq ++ k.keyName ++ sq ++ " が変更: " ++ pyStr o ++ " → " ++ pyStr n

def metaKeys : List MetaKey :=
  [.law_number, .law_name, .enact_date, .enforcement_date]

/-- The metadata diff loop
`for key in set(old_metadata.keys()) | set(new_metadata.keys()):`.
Python iterates the key set in an unspecified (hash-dependent) order; the
embedding fixes the `metaKeys` order, which is sound for every claim made
here since they only speak about membership in `changes`. -/
def metadataDiffChanges (oldM newM : DiffMetadata) : List String :=
  (metaKeys.filter fun k => (oldM.raw k).isSome || (newM.raw k).isSome).filterMap
    fun k =>
      if oldM.get k ≠ newM.get k then
        some (metaChangeMsg k (oldM.get k) (newM.get k))
      else none

/-- The comparison block of `check_japanese_law_diff`
(`if result.old_hash and result.new_hash: ...`), returning
`(has_changes, changes)`.  Python truthiness of an `Optional[str]`:
falsy iff `None` or the empty string. -/
def compareStep (oldM newM : DiffMetadata) (oldHash : Option String) (newHash : String) :
    Bool × List String :=
  match oldHash with
  | some oh =>
    if oh ≠ "" ∧ newHash ≠ "" then
      if oh ≠ newHash then
        (true, hashChangedMsg :: metadataDiffChanges oldM newM)
      else
        (false, [noChangesMsg])
    else (false, [initialDownloadMsg])
  | none => (false, [initialDownloadMsg])

/-- Embedding of `check_japanese_law_diff` / `check_english_law_diff`
(the two methods are textually identical up to the source label and file
names).  `dl` is the outcome of `_download_file` (`none` = retrieval
failure, `some c` = the bytes written to the temp file); `ts` is the
`datetime.now().isoformat()` timestamp.

Returns the `DiffResult` together with the final file-system state.  On
the success path the code writes the temp file, writes the normalized
file, computes hashes and changes, then deletes the old snapshot, renames
the normalized file onto the snapshot path and unlinks the temp file; the
state returned here is that final state.  When `_normalize_xml` hits a
parse error it returns the temp path itself, in which case the temp file
is what gets renamed — in both cases the surviving snapshot content is
`normalizeXml lib dlc` and both temporary paths end up absent. -/
def runDiffCore {Content : Type} (lib : XmlLib Content) (src : String)
    (fs : SourceFs Content) (dl : Option Content) (ts : String) :
    DiffResult × SourceFs Content :=
  let oldHash : Option String := fs.snapshot.map lib.md5hex
  match dl with
  | none =>
    ({ source := src, timestamp := ts, has_changes := false, old_hash := oldHash,
       new_hash := none, changes := [], error := some downloadFailedMsg }, fs)
  | some dlc =>
    let normc := normalizeXml lib dlc
    let newHash := lib.md5hex normc
    let oldM := match fs.snapshot with
      | some oc => extractMetadataC lib oc
      | none => emptyDiffMetadata
    let newM := extractMetadataC lib normc
    let cmp := compareStep oldM newM oldHash newHash
    ({ source := src, timestamp := ts, has_changes := cmp.1, old_hash := oldHash,
       new_hash := some newHash, changes := cmp.2, error := none },
     { snapshot := some normc, temp := none, normTemp := none })

def checkJapaneseLawDiff {Content : Type} (lib : XmlLib Content)
    (fs : SourceFs Content) (dl : Option Content) (ts : String) :
    DiffResult × SourceFs Content :=
  runDiffCore lib "Japanese Law" fs dl ts

def checkEnglishLawDiff {Content : Type} (lib : XmlLib Content)
    (fs : SourceFs Content) (dl : Option Content) (ts : String) :
    DiffResult × SourceFs Content :=
  runDiffCore lib "English Law" fs dl ts

/-- Embedding of `check_all_diffs`: runs the Japanese diff, then the
English diff (each on its own pair of snapshot/temp files), and returns
the two records in order.  The cache write that follows in the source is
best-effort persistence and is not modelled. -/
def checkAllDiffs {Content : Type} (lib : XmlLib Content)
    (jaFs : SourceFs Content) (jaDl : Option Content)
    (enFs : SourceFs Content) (enDl : Option Content)
    (ts1 ts2 : String) :
    List DiffResult × SourceFs Content × SourceFs Content :=
  let ja := checkJapaneseLawDiff lib jaFs jaDl ts1
  let en := checkEnglishLawDiff lib enFs enDl ts2
  ([ja.1, en.1], ja.2, en.2)

/-! ## A concrete library instance used for witnesses -/

def encodeElem (e : XElem) : String :=
  e.tag ++ "=" ++ pyStr e.text

/-- A concrete `XmlLib` over `XDoc` content: parsing is the identity,
pretty printing is the identity, and the digest is an (injective on the
inputs used) encoding prefixed by `"h"` so it is never empty. -/
def testLib : XmlLib XDoc where
  parse := fun c => some c
  pretty := fun d => d
  md5hex := fun c => "h" ++ String.join (c.map encodeElem)
  md5hex_ne_empty := by
    intro c h
    have hl : ("h" ++ String.join (c.map encodeElem)).length = ("" : String).length :=
      congrArg String.length h
    rw [String.length_append] at hl
    have h1 : ("h" : String).length = 1 := rfl
    have h0 : ("" : String).length = 0 := rfl
    omega

/-! ## Model of the source XML documents as seen by `eli_converter.py`

`ELIConverter` reads, from the Japanese document: the `xpath("//Article[@Num]")`
node set (each with its `Num` attribute, `ArticleTitle` text, `Sentence`
texts and the `.//text()` fallback nodes), the `.//Law` element's
promulgation attributes, and the `.//LawNum` / `.//LawTitle` texts; from
the English document: the `//Article[@Num]` node set (with
`ParagraphSentence//Sentence` texts), the `.//LawTitle` text and the root
`OriginalPromulgateDate` attribute.  The models below carry exactly those
projections. -/

/-- One element of `japanese_xml.xpath("//Article[@Num]")`.
`num` is the `Num` attribute (present by the xpath predicate, possibly
empty).  `title` is `none` when there is no `ArticleTitle` descendant,
`some none` when the element exists with `None` text, `some (some t)`
otherwise.  `sentences` are the texts of the `.//Sentence` descendants and
`allTexts` the raw `.//text()` nodes used by the fallback. -/
structure SrcArticle where
  num : String
  title : Option (Option String)
  sentences : List (Option String)
  allTexts : List String
deriving Repr, DecidableEq

/-- One element of `english_xml.xpath("//Article[@Num]")`; `sentences`
are the texts of the `.//ParagraphSentence//Sentence` descendants. -/
structure EnSrcArticle where
  num : String
  title : Option (Option String)
  sentences : List (Option String)
deriving Repr, DecidableEq

/-- Attributes read off the Japanese `.//Law` element by
`_extract_metadata_from_xml` (each `none` when the attribute is absent,
in which case `Element.get` supplies the hard-coded default). -/
structure LawAttrs where
  year : Option String
  month : Option String
  day : Option String
  era : Option String
deriving Repr, DecidableEq

/-- The Japanese source document (the projections of `self.japanese_xml`
actually read by the converter). -/
structure JaDoc where
  law : Option LawAttrs
  lawNum : Option (Option String)
  lawTitle : Option (Option String)
  articles : List SrcArticle
deriving Repr, DecidableEq

/-- The English source document (the projections of `self.english_xml`
actually read by the converter). -/
structure EnDoc where
  lawTitle : Option (Option String)
  originalPromulgateDate : Option String
  articles : List EnSrcArticle
deriving Repr, DecidableEq

/-- One `Article` element of the structure-preserving XML built by
`_extract_articles_from_japanese` (attributes `id`/`number`, children
`Number`/`Title`/`Content`/`Translation`).  `titleEn` is the `en`
attribute the linker sets on `Title` (the linked English title may itself
be Python `None`, which the model stores; `lxml` would reject it with an
exception the source catches and logs — no claim observes the field). -/
structure StructArticle where
  id : String
  number : String
  title : String
  titleEn : Option (Option String)
  content : String
  transStatus : String
  transText : String
deriving Repr, DecidableEq

/-- The body of `_extract_articles_from_japanese` for one selected article:
title falls back to `f"第{n}条"` when `ArticleTitle` is missing or has
falsy text; content is the newline-join of the truthy stripped `Sentence`
texts, falling back to the space-join of all stripped nonempty text nodes;
the translation placeholder is created with `status="pending"`. -/
def mkStructArticle (a : SrcArticle) : StructArticle :=
  { id := "art_" ++ a.num
    number := a.num
    title :=
      match a.title with
      | some (some t) => if t ≠ "" then pyStrip t else "第" ++ a.num ++ "条"
      | _ => "第" ++ a.num ++ "条"
    titleEn := none
    content :=
      if a.sentences ≠ [] then
        String.intercalate "\n"
          (a.sentences.filterMap fun s =>
            match s with
            | some t => if t ≠ "" then some (pyStrip t) else none
            | none => none)
      else
        String.intercalate " " ((a.allTexts.map pyStrip).filter fun t => t ≠ "")
    transStatus := "pending"
    transText := "Article " ++ a.num ++ " - English translation" }

/-- `_extract_articles_from_japanese`: one record per element of
`//Article[@Num]` whose `Num` attribute is truthy (the
`if not article_num: continue` guard). -/
def extractArticlesFromJapanese (arts : List SrcArticle) : List StructArticle :=
  (arts.filter fun a => a.num ≠ "").map mkStructArticle

/-- A value of the `english_articles` dictionary built by
`_link_english_translations`: `title` is `title_elem.text` when the
`ArticleTitle` element exists (no truthiness check on the text there),
else the synthesized `f"Article {n}"`. -/
structure EnEntry where
  title : Option String
  content : String
deriving Repr, DecidableEq

def enEntry (a : EnSrcArticle) : EnEntry :=
  { title :=
      match a.title with
      | some t => t
      | none => some ("Article " ++ a.num)
    content :=
      String.intercalate "\n"
        (a.sentences.filterMap fun s =>
          match s with
          | some t => if t ≠ "" then some (pyStrip t) else none
          | none => none) }

/-- Python dict assignment `d[k] = v`: overwrite in place, else append
(insertion order preserved). -/
def dictInsert (d : List (String × EnEntry)) (k : String) (v : EnEntry) :
    List (String × EnEntry) :=
  if d.any fun p => p.1 = k then
    d.map fun p => if p.1 = k then (k, v) else p
  else d ++ [(k, v)]

def dictGet? (d : List (String × EnEntry)) (k : String) : Option EnEntry :=
  (d.find? fun p => p.1 = k).map fun p => p.2

/-- The first loop of `_link_english_translations`: build the
`english_articles` dictionary keyed by truthy `Num` (later assignments
overwrite earlier ones). -/
def buildEnDict (arts : List EnSrcArticle) : List (String × EnEntry) :=
  arts.foldl (fun d a => if a.num ≠ "" then dictInsert d a.num (enEntry a) else d) []

/-- The second loop of `_link_english_translations`, for one structured
article: when its number is a key of the dictionary, set the translation
status to `completed`, overwrite the translation text with the English
content and record the English title on the `Title` element. -/
def linkArticle (d : List (String × EnEntry)) (s : StructArticle) : StructArticle :=
  match dictGet? d s.number with
  | some e =>
    { s with transStatus := "completed", transText := e.content, titleEn := some e.title }
  | none => s

def linkEnglishTranslations (structured : List StructArticle)
    (enArts : List EnSrcArticle) : List StructArticle :=
  structured.map (linkArticle (buildEnDict enArts))

/-! ## `_extract_articles_json_ld` -/

def RADIO_ACT_URI : String := "http://data.japan.go.jp/law/radio-act/1950/131"

/-- An entry of the per-article `eli:has_language_version` list. -/
structure LangVersion where
  language : String
  content : String
deriving Repr, DecidableEq

/-- A per-article node of `eli:has_part` (the fields of the
`article_json` dictionary; the constant `@type` and
`eli:division_type` strings are omitted). -/
structure ArticleNode where
  id : String
  number : String
  title : String
  content : String
  has_language_version : List LangVersion
deriving Repr, DecidableEq

/-- The body of the `_extract_articles_json_ld` loop for one structured
article.  `Title`, `Content` and `Translation` children always exist on
articles built by `_extract_articles_from_japanese`, with the texts the
model carries; `translation or ""` never triggers since the placeholder
is always set. -/
def articleNode (s : StructArticle) : ArticleNode :=
  { id := RADIO_ACT_URI ++ "#" ++ s.id
    number := s.number
    title := s.title
    content := s.content
    has_language_version :=
      [{ language := "ja", content := s.content },
       { language := "en", content := s.transText }] }

def extractArticlesJsonLd (structured : List StructArticle) : List ArticleNode :=
  structured.map articleNode

/-! ## `_extract_metadata_from_xml` -/

/-- The metadata dictionary of `_extract_metadata_from_xml` (all values
are strings; the dictionary is initialised with the hard-coded Radio Act
defaults and individual fields are overwritten when found). -/
structure EliMetadata where
  law_id : String
  law_name : String
  law_name_en : String
  enactment_date : String
  law_number : String
  version : String
  date_version : String
  valid : String
  passed_by : String
  publisher : String
  document_type : String
deriving Repr, DecidableEq

def eliDefaults : EliMetadata :=
  { law_id := "325AC0000000131"
    law_name := "電波法"
    law_name_en := "Radio Act"
    enactment_date := "1950-05-02"
    law_number := "昭和25年法律第131号"
    version := "20240801"
    date_version := "2024-08-01"
    valid := "1950-05-02/9999-12-31"
    passed_by := "National Diet of Japan"
    publisher := "Ministry of Internal Affairs and Communications"
    document_type := "Act" }

/-- Python `str.zfill(2)` (sign-aware left zero padding to width 2). -/
def zfill2 (s : String) : String :=
  if s.length ≥ 2 then s
  else
    match s.data with
    | [] => "00"
    | c :: rest =>
      if c = '-' ∨ c = '+' then String.mk (c :: '0' :: rest)
      else String.mk ('0' :: c :: rest)

/-- The `.//Law` block of `_extract_metadata_from_xml`: attribute reads
with defaults, Shōwa-to-western year conversion, date assembly.  `none`
models the `ValueError` that `int(year)` raises on a non-numeric string,
which aborts the surrounding `try` block (`String.toInt?` stands in for
Python `int` on plain decimal strings). -/
def applyJaLaw (m : EliMetadata) (la : LawAttrs) : Option EliMetadata :=
  let year := la.year.getD "25"
  let month := la.month.getD "05"
  let day := la.day.getD "02"
  let era := la.era.getD "Showa"
  match pyInt? year with
  | none => none
  | some y =>
    let wy : Int := if era = "Showa" then 1925 + y else y
    let d := toString wy ++ "-" ++ zfill2 month ++ "-" ++ zfill2 day
    some { m with enactment_date := d, valid := d ++ "/9999-12-31" }

/-- The `.//LawNum` and `.//LawTitle` blocks of the Japanese section
(guarded by element presence and truthy text, value stripped). -/
def applyJaRest (m : EliMetadata) (ja : JaDoc) : EliMetadata :=
  let m1 :=
    match ja.lawNum with
    | some (some t) => if t ≠ "" then { m with law_number := pyStrip t } else m
    | _ => m
  match ja.lawTitle with
  | some (some t) => if t ≠ "" then { m1 with law_name := pyStrip t } else m1
  | _ => m1

/-- The English section of `_extract_metadata_from_xml`.  `strptime`
models `datetime.strptime(date, "%B %d, %Y").strftime("%Y-%m-%d")`
(`none` = `ValueError`, caught locally by the inner `try`). -/
def applyEn (strptime : String → Option String) (m : EliMetadata) (en : EnDoc) :
    EliMetadata :=
  let m1 :=
    match en.lawTitle with
    | some (some t) => if t ≠ "" then { m with law_name_en := pyStrip t } else m
    | _ => m
  match en.originalPromulgateDate with
  | some od =>
    if od ≠ "" then
      match strptime od with
      | some d => { m1 with enactment_date := d, valid := d ++ "/9999-12-31" }
      | none => m1
    else m1
  | none => m1

/-- `_extract_metadata_from_xml`: defaults, then the Japanese section,
then the English section; an exception inside the Japanese section (the
`int(year)` `ValueError`) falls to the outer `except`, which logs and
returns the metadata accumulated so far (still the defaults, since the
date assignment is the first write of the `try` block). -/
def extractMetadataFromXml (strptime : String → Option String)
    (ja : Option JaDoc) (en : Option EnDoc) : EliMetadata :=
  let m0 := eliDefaults
  let jaStep : Option EliMetadata :=
    match ja with
    | none => some m0
    | some j =>
      match j.law with
      | none => some (applyJaRest m0 j)
      | some la =>
        match applyJaLaw m0 la with
        | none => none
        | some m1 => some (applyJaRest m1 j)
  match jaStep with
  | none => m0
  | some m1 =>
    match en with
    | none => m1
    | some e => applyEn strptime m1 e

/-! ## The converter pipeline -/

/-- The mutable state of an `ELIConverter` instance. -/
structure ELIConverter where
  japanese_xml : Option JaDoc
  english_xml : Option EnDoc
  structured_xml : Option (List StructArticle)
deriving Repr, DecidableEq

/-- `load_xml_files` after a successful parse of both documents. -/
def loadXmlFiles (ja : JaDoc) (en : EnDoc) : ELIConverter :=
  { japanese_xml := some ja, english_xml := some en, structured_xml := none }

/-- `create_structured_xml`: builds the `Articles` subtree from the
Japanese document when present (the structured `Metadata` subtree is
write-only and not modelled). -/
def createStructuredXml (c : ELIConverter) : ELIConverter :=
  let arts :=
    match c.japanese_xml with
    | some j => extractArticlesFromJapanese j.articles
    | none => []
  { c with structured_xml := some arts }

/-- `add_translation_links`: a no-op failure when the structured XML is
missing; links English translations when the English document is loaded. -/
def addTranslationLinks (c : ELIConverter) : ELIConverter :=
  match c.structured_xml with
  | none => c
  | some arts =>
    match c.english_xml with
    | some e => { c with structured_xml := some (linkEnglishTranslations arts e.articles) }
    | none => c

/-- The top-level JSON-LD dictionary built by `convert_to_json_ld`
(constant context/type entries omitted; every metadata-derived field
kept). -/
structure JsonLd where
  id : String
  title_ja : String
  title_en : String
  date_document : String
  date_version : String
  version : String
  valid : String
  passed_by : String
  publisher : String
  type_document : String
  number : String
  language : List String
  is_about : String
  has_part : List ArticleNode
deriving Repr, DecidableEq

/-- `convert_to_json_ld`: fails (returns `None`) when the structured XML
has not been built; otherwise extracts metadata from the loaded source
documents and assembles the graph. -/
def convertToJsonLd (strptime : String → Option String) (c : ELIConverter) :
    Option JsonLd :=
  match c.structured_xml with
  | none => none
  | some arts =>
    let md := extractMetadataFromXml strptime c.japanese_xml c.english_xml
    some
      { id := RADIO_ACT_URI
        title_ja := md.law_name
        title_en := md.law_name_en
        date_document := md.enactment_date
        date_version := md.date_version
        version := md.version
        valid := md.valid
        passed_by := md.passed_by
        publisher := md.publisher
        type_document := md.document_type
        number := "131"
        language := ["ja", "en"]
        is_about := "radio spectrum management"
        has_part := extractArticlesJsonLd arts }

/-- The JSON-LD graph produced from a converter with no loaded source
documents and an empty structured article list (used as a concrete
projection witness). -/
def jldEx : JsonLd :=
  { id := RADIO_ACT_URI
    title_ja := "電波法"
    title_en := "Radio Act"
    date_document := "1950-05-02"
    date_version := "2024-08-01"
    version := "20240801"
    valid := "1950-05-02/9999-12-31"
    passed_by := "National Diet of Japan"
    publisher := "Ministry of Internal Affairs and Communications"
    type_document := "Act"
    number := "131"
    language := ["ja", "en"]
    is_about := "radio spectrum management"
    has_part := [] }

/-- The validity invariant of `_extract_metadata_from_xml`: every branch
that writes `valid` writes `enactment_date` followed by the open-interval
sentinel (and the defaults satisfy it). -/
def ValidInv (m : EliMetadata) : Prop :=
  m.valid = m.enactment_date ++ "/9999-12-31"

/-! ## Shared lemmas -/

theorem mem_metaKeys (k : MetaKey) : k ∈ metaKeys := by
  cases k <;> simp [metaKeys]

theorem mem_metadataDiffChanges (oldM newM : DiffMetadata) (k : MetaKey)
    (hpres : oldM.raw k ≠ none ∨ newM.raw k ≠ none)
    (hdiff : oldM.get k ≠ newM.get k) :
    metaChangeMsg k (oldM.get k) (newM.get k) ∈ metadataDiffChanges oldM newM := by
  unfold metadataDiffChanges
  apply List.mem_filterMap.mpr
  refine ⟨k, ?_, ?_⟩
  · apply List.mem_filter.mpr
    refine ⟨mem_metaKeys k, ?_⟩
    rcases hpres with h1 | h1 <;> simp [Option.isSome_iff_ne_none, h1]
  · simp [hdiff]

/-! ## Claims about the diff engine -/

/-- C1: in a diff run where both fingerprints are present and differ, the
returned record has `has_changes = true`, its changes contain the fixed
"fingerprint changed" marker, and for every metadata key in the union of
the two extracted dictionaries whose old and new values (Python
`dict.get`, missing side `None`) differ, the changes contain the
formatted `field: old → new` entry. -/
theorem C1_changed_reports_metadata_diff {Content : Type} (lib : XmlLib Content)
    (src : String) (fs : SourceFs Content) (oldc dlc : Content) (ts : String)
    (h : fs.snapshot = some oldc)
    (hneq : lib.md5hex oldc ≠ lib.md5hex (normalizeXml lib dlc)) :
    ((runDiffCore lib src fs (some dlc) ts).1.has_changes = true) ∧
    hashChangedMsg ∈ (runDiffCore lib src fs (some dlc) ts).1.changes ∧
    ∀ k : MetaKey,
      ((extractMetadataC lib oldc).raw k ≠ none ∨
        (extractMetadataC lib (normalizeXml lib dlc)).raw k ≠ none) →
      (extractMetadataC lib oldc).get k ≠ (extractMetadataC lib (normalizeXml lib dlc)).get k →
      metaChangeMsg k ((extractMetadataC lib oldc).get k)
          ((extractMetadataC lib (normalizeXml lib dlc)).get k) ∈
        (runDiffCore lib src fs (some dlc) ts).1.changes := by
  have hne1 := lib.md5hex_ne_empty oldc
  have hne2 := lib.md5hex_ne_empty (normalizeXml lib dlc)
  have hch : (runDiffCore lib src fs (some dlc) ts).1.changes =
      hashChangedMsg ::
        metadataDiffChanges (extractMetadataC lib oldc)
          (extractMetadataC lib (normalizeXml lib dlc)) := by
    simp [runDiffCore, compareStep, h, hne1, hne2, hneq]
  have hhc : (runDiffCore lib src fs (some dlc) ts).1.has_changes = true := by
    simp [runDiffCore, compareStep, h, hne1, hne2, hneq]
  refine ⟨hhc, ?_, ?_⟩
  · rw [hch]; exact List.mem_cons_self _ _
  · intro k hpres hdiff
    rw [hch]
    exact List.mem_cons_of_mem _ (mem_metadataDiffChanges _ _ k hpres hdiff)

/-- Witness for C1 at a concrete run: old snapshot holds `LawNum = 131`,
the download holds `LawNum = 132`; the fingerprints differ, the
"fingerprint changed" marker is recorded and the `law_number` delta is
reported. -/
theorem C1_witness :
    ((runDiffCore testLib "Japanese Law"
        ⟨some [⟨"LawNum", some "131"⟩], none, none⟩
        (some [⟨"LawNum", some "132"⟩]) "t").1.has_changes = true) ∧
    hashChangedMsg ∈ (runDiffCore testLib "Japanese Law"
        ⟨some [⟨"LawNum", some "131"⟩], none, none⟩
        (some [⟨"LawNum", some "132"⟩]) "t").1.changes ∧
    metaChangeMsg MetaKey.law_number (some "131") (some "132") ∈
      (runDiffCore testLib "Japanese Law"
        ⟨some [⟨"LawNum", some "131"⟩], none, none⟩
        (some [⟨"LawNum", some "132"⟩]) "t").1.changes := by
  have h := C1_changed_reports_metadata_diff testLib "Japanese Law"
    ⟨some [⟨"LawNum", some "131"⟩], none, none⟩
    [⟨"LawNum", some "131"⟩] [⟨"LawNum", some "132"⟩] "t" rfl (by decide)
  exact ⟨h.1, h.2.1, h.2.2 MetaKey.law_number (by decide) (by decide)⟩

/-- C2 counterexample: on a first run (no prior snapshot) with a
successful download, the recorded old fingerprint is `None`, not the
empty string the claim asserts; the rest of the claim (no change flag,
"initial download" marker) does hold. -/
theorem C2_counterexample :
    ((runDiffCore testLib "Japanese Law" ⟨none, none, none⟩
        (some [⟨"A", none⟩]) "t").1.old_hash = none) ∧
    ¬ ((runDiffCore testLib "Japanese Law" ⟨none, none, none⟩
        (some [⟨"A", none⟩]) "t").1.old_hash = some "") ∧
    ((runDiffCore testLib "Japanese Law" ⟨none, none, none⟩
        (some [⟨"A", none⟩]) "t").1.has_changes = false) ∧
    (runDiffCore testLib "Japanese Law" ⟨none, none, none⟩
        (some [⟨"A", none⟩]) "t").1.changes = [initialDownloadMsg] := by
  decide

/-- C2 as amended: on a first run with a successful download,
`has_changes` is `false` regardless of content, the changes list is
exactly the "initial download" marker, and the old fingerprint field is
left absent (`None`), not set to an empty-string sentinel. -/
theorem C2_first_run_amended {Content : Type} (lib : XmlLib Content)
    (src : String) (fs : SourceFs Content) (dlc : Content) (ts : String)
    (h : fs.snapshot = none) :
    ((runDiffCore lib src fs (some dlc) ts).1.has_changes = false) ∧
    (runDiffCore lib src fs (some dlc) ts).1.changes = [initialDownloadMsg] ∧
    (runDiffCore lib src fs (some dlc) ts).1.old_hash = none := by
  simp [runDiffCore, compareStep, h]

theorem C2_witness :
    ((runDiffCore testLib "Japanese Law" ⟨none, none, none⟩
        (some [⟨"B", some "x"⟩]) "t").1.has_changes = false) ∧
    (runDiffCore testLib "Japanese Law" ⟨none, none, none⟩
        (some [⟨"B", some "x"⟩]) "t").1.changes = [initialDownloadMsg] ∧
    (runDiffCore testLib "Japanese Law" ⟨none, none, none⟩
        (some [⟨"B", some "x"⟩]) "t").1.old_hash = none :=
  C2_first_run_amended testLib "Japanese Law" ⟨none, none, none⟩ [⟨"B", some "x"⟩] "t" rfl

/-- C3: when both fingerprints are present and equal, the run reports no
changes and its changes list is exactly the "no changes" marker. -/
theorem C3_unchanged_exact_marker {Content : Type} (lib : XmlLib Content)
    (src : String) (fs : SourceFs Content) (oldc dlc : Content) (ts : String)
    (h : fs.snapshot = some oldc)
    (heq : lib.md5hex oldc = lib.md5hex (normalizeXml lib dlc)) :
    ((runDiffCore lib src fs (some dlc) ts).1.has_changes = false) ∧
    (runDiffCore lib src fs (some dlc) ts).1.changes = [noChangesMsg] := by
  have hne1 := lib.md5hex_ne_empty oldc
  have hne2 := lib.md5hex_ne_empty (normalizeXml lib dlc)
  simp [runDiffCore, compareStep, h, heq, hne1, hne2]

/-- Witness for C3: old snapshot bytes and new normalized bytes both
model the document `A`. -/
theorem C3_witness :
    ((runDiffCore testLib "Japanese Law" ⟨some [⟨"A", none⟩], none, none⟩
        (some [⟨"A", none⟩]) "t").1.has_changes = false) ∧
    (runDiffCore testLib "Japanese Law" ⟨some [⟨"A", none⟩], none, none⟩
        (some [⟨"A", none⟩]) "t").1.changes = [noChangesMsg] :=
  C3_unchanged_exact_marker testLib "Japanese Law" ⟨some [⟨"A", none⟩], none, none⟩
    [⟨"A", none⟩] [⟨"A", none⟩] "t" rfl rfl

/-- C4: a second diff run immediately after a successful one, on the same
unchanged source content, is `Unchanged`: the snapshot persisted by the
first run is the normalized candidate, so the second run's old
fingerprint reproduces its new fingerprint. -/
theorem C4_second_run_unchanged {Content : Type} (lib : XmlLib Content)
    (src : String) (fs : SourceFs Content) (srcDoc : Content) (ts1 ts2 : String) :
    ((runDiffCore lib src ((runDiffCore lib src fs (some srcDoc) ts1).2)
        (some srcDoc) ts2).1.has_changes = false) ∧
    (runDiffCore lib src ((runDiffCore lib src fs (some srcDoc) ts1).2)
        (some srcDoc) ts2).1.changes = [noChangesMsg] := by
  have hfs : (runDiffCore lib src fs (some srcDoc) ts1).2 =
      ⟨some (normalizeXml lib srcDoc), none, none⟩ := rfl
  rw [hfs]
  have hne := lib.md5hex_ne_empty (normalizeXml lib srcDoc)
  simp [runDiffCore, compareStep, hne]

/-- C8: on a failed run (an error is recorded — in the modelled state
machine the retrieval failure) the on-disk snapshot is unchanged and no
temporary file remains; only a successful run replaces the snapshot, and
what it installs is the normalized candidate. -/
theorem C8_failed_leaves_snapshot {Content : Type} (lib : XmlLib Content)
    (src : String) (fs : SourceFs Content) (dl : Option Content) (ts : String)
    (ht : fs.temp = none) (hn : fs.normTemp = none) :
    ((runDiffCore lib src fs dl ts).1.error ≠ none →
      (runDiffCore lib src fs dl ts).2.snapshot = fs.snapshot ∧
      (runDiffCore lib src fs dl ts).2.temp = none ∧
      (runDiffCore lib src fs dl ts).2.normTemp = none) ∧
    ((runDiffCore lib src fs dl ts).1.error = none →
      ∃ c, dl = some c ∧
        (runDiffCore lib src fs dl ts).2 =
          { snapshot := some (normalizeXml lib c), temp := none, normTemp := none }) := by
  cases dl with
  | none =>
    refine ⟨fun _ => ⟨rfl, ht, hn⟩, fun hno => ?_⟩
    simp [runDiffCore] at hno
  | some c =>
    refine ⟨fun herr => absurd rfl herr, fun _ => ⟨c, rfl, rfl⟩⟩

/-- Witness for C8 at a concrete failing run: the download fails, the
existing snapshot survives byte-for-byte and no temp file exists. -/
theorem C8_witness :
    ((runDiffCore testLib "Japanese Law" ⟨some [⟨"A", none⟩], none, none⟩
        none "t").2.snapshot = some [⟨"A", none⟩]) ∧
    ((runDiffCore testLib "Japanese Law" ⟨some [⟨"A", none⟩], none, none⟩
        none "t").2.temp = none) ∧
    (runDiffCore testLib "Japanese Law" ⟨some [⟨"A", none⟩], none, none⟩
        none "t").2.normTemp = none := by
  have h := (C8_failed_leaves_snapshot testLib "Japanese Law"
    ⟨some [⟨"A", none⟩], none, none⟩ none "t" rfl rfl).1 (by decide)
  exact h

/-- C9: a full check run returns exactly one record per source, in order
Japanese then English; the English record is computed from the English
inputs alone, and a Japanese retrieval failure yields a record with the
recorded error string while the English diff still runs and returns its
own record. -/
theorem C9_per_source_isolation {Content : Type} (lib : XmlLib Content)
    (jaFs enFs : SourceFs Content) (jaDl enDl : Option Content) (ts1 ts2 : String) :
    ((checkAllDiffs lib jaFs jaDl enFs enDl ts1 ts2).1.length = 2) ∧
    ((checkAllDiffs lib jaFs jaDl enFs enDl ts1 ts2).1 =
      [(checkJapaneseLawDiff lib jaFs jaDl ts1).1,
       (checkEnglishLawDiff lib enFs enDl ts2).1]) ∧
    ((checkJapaneseLawDiff lib jaFs jaDl ts1).1.source = "Japanese Law") ∧
    ((checkEnglishLawDiff lib enFs enDl ts2).1.source = "English Law") ∧
    ((checkAllDiffs lib jaFs none enFs enDl ts1 ts2).1.get? 1 =
      some (checkEnglishLawDiff lib enFs enDl ts2).1) ∧
    (checkJapaneseLawDiff lib jaFs none ts1).1.error = some downloadFailedMsg := by
  refine ⟨rfl, rfl, ?_, ?_, rfl, rfl⟩
  · cases jaDl <;> rfl
  · cases enDl <;> rfl

/-! ## Claims about the converter -/

theorem linkArticle_number (d : List (String × EnEntry)) (s : StructArticle) :
    (linkArticle d s).number = s.number := by
  unfold linkArticle
  cases dictGet? d s.number <;> rfl

theorem linked_numbers (structured : List StructArticle) (enArts : List EnSrcArticle) :
    (linkEnglishTranslations structured enArts).map StructArticle.number =
      structured.map StructArticle.number := by
  unfold linkEnglishTranslations
  rw [List.map_map]
  apply List.map_congr_left
  intro a _
  exact linkArticle_number _ a

/-- C5 counterexample: two primary articles sharing the number `1` yield
two aligned records for that number, so "exactly one record per article
number present in the primary extraction" fails without a distinctness
assumption. -/
theorem C5_counterexample :
    ("1" ∈ (extractArticlesFromJapanese
        [⟨"1", none, [], []⟩, ⟨"1", none, [], []⟩]).map StructArticle.number) ∧
    (((linkEnglishTranslations (extractArticlesFromJapanese
        [⟨"1", none, [], []⟩, ⟨"1", none, [], []⟩]) []).map
        StructArticle.number).count "1" = 2) ∧
    ¬ (((linkEnglishTranslations (extractArticlesFromJapanese
        [⟨"1", none, [], []⟩, ⟨"1", none, [], []⟩]) []).map
        StructArticle.number).count "1" = 1) := by
  decide

/-- C5 as amended: the aligned output carries exactly the primary
extraction's article numbers (one record per primary occurrence, in
order); when the primary numbers are distinct this is exactly one record
per number, and a number absent from the primary extraction — in
particular one present only in the secondary extraction — never appears. -/
theorem C5_primary_defines_article_set (jaArts : List SrcArticle)
    (enArts : List EnSrcArticle) :
    ((linkEnglishTranslations (extractArticlesFromJapanese jaArts) enArts).map
        StructArticle.number =
      (extractArticlesFromJapanese jaArts).map StructArticle.number) ∧
    (((extractArticlesFromJapanese jaArts).map StructArticle.number).Nodup →
      ∀ n ∈ (extractArticlesFromJapanese jaArts).map StructArticle.number,
        ((linkEnglishTranslations (extractArticlesFromJapanese jaArts) enArts).map
          StructArticle.number).count n = 1) ∧
    (∀ n, n ∉ (extractArticlesFromJapanese jaArts).map StructArticle.number →
      ((linkEnglishTranslations (extractArticlesFromJapanese jaArts) enArts).map
        StructArticle.number).count n = 0) := by
  have h := linked_numbers (extractArticlesFromJapanese jaArts) enArts
  refine ⟨h, ?_, ?_⟩
  · intro hnd n hn
    rw [h]
    exact List.count_eq_one_of_mem hnd hn
  · intro n hn
    rw [h]
    exact List.count_eq_zero_of_not_mem hn

theorem C5_witness :
    (((linkEnglishTranslations (extractArticlesFromJapanese
        [⟨"1", none, [], []⟩, ⟨"2", none, [], []⟩]) [⟨"3", none, []⟩]).map
        StructArticle.number).count "1" = 1) ∧
    (((linkEnglishTranslations (extractArticlesFromJapanese
        [⟨"1", none, [], []⟩, ⟨"2", none, [], []⟩]) [⟨"3", none, []⟩]).map
        StructArticle.number).count "3" = 0) := by
  have h := C5_primary_defines_article_set
    [⟨"1", none, [], []⟩, ⟨"2", none, [], []⟩] [⟨"3", none, []⟩]
  exact ⟨h.2.1 (by decide) "1" (by decide), h.2.2 "3" (by decide)⟩

theorem pending_placeholder (jaArts : List SrcArticle) (enArts : List EnSrcArticle) :
    ∀ s ∈ linkEnglishTranslations (extractArticlesFromJapanese jaArts) enArts,
      s.transStatus = "pending" →
      s.transText = "Article " ++ s.number ++ " - English translation" := by
  intro s hs hp
  unfold linkEnglishTranslations extractArticlesFromJapanese at hs
  rw [List.mem_map] at hs
  obtain ⟨s0, hs0, rfl⟩ := hs
  rw [List.mem_map] at hs0
  obtain ⟨a, _, rfl⟩ := hs0
  cases h : dictGet? (buildEnDict enArts) (mkStructArticle a).number with
  | some e =>
    simp [linkArticle, h] at hp
  | none =>
    simp only [linkArticle, h]
    rfl

/-- C6 counterexample: a pending article's secondary language version
carries the synthesized placeholder text, not the empty string the claim
asserts. -/
theorem C6_counterexample :
    (((linkEnglishTranslations (extractArticlesFromJapanese
        [⟨"1", none, [], []⟩]) []).map StructArticle.transStatus) = ["pending"]) ∧
    ((extractArticlesJsonLd (linkEnglishTranslations
        (extractArticlesFromJapanese [⟨"1", none, [], []⟩]) [])).map
      (fun nd => nd.has_language_version.map LangVersion.content) =
        [["", "Article 1 - English translation"]]) ∧
    ("Article 1 - English translation" ≠ ("" : String)) := by
  decide

/-- C6 as amended: every per-article node carries exactly two language
versions — primary (`ja`) then secondary (`en`), with the article's
content and translation text — and when the article's translation status
is `pending` the secondary content is the fixed placeholder
`"Article {n} - English translation"` (not the empty string). -/
theorem C6_two_language_versions (jaArts : List SrcArticle)
    (enArts : List EnSrcArticle) (i : Nat) (s : StructArticle)
    (hs : (linkEnglishTranslations (extractArticlesFromJapanese jaArts) enArts).get? i =
      some s) :
    ∃ nd, (extractArticlesJsonLd (linkEnglishTranslations
        (extractArticlesFromJapanese jaArts) enArts)).get? i = some nd ∧
      nd.has_language_version = [⟨"ja", s.content⟩, ⟨"en", s.transText⟩] ∧
      nd.has_language_version.map LangVersion.language = ["ja", "en"] ∧
      nd.has_language_version.length = 2 ∧
      (s.transStatus = "pending" →
        s.transText = "Article " ++ s.number ++ " - English translation") := by
  refine ⟨articleNode s, ?_, rfl, rfl, rfl, ?_⟩
  · unfold extractArticlesJsonLd
    rw [List.get?_map, hs]
    rfl
  · exact pending_placeholder jaArts enArts s (List.get?_mem hs)

theorem C6_witness :
    ∃ nd, (extractArticlesJsonLd (linkEnglishTranslations
        (extractArticlesFromJapanese [⟨"1", none, [], []⟩]) [])).get? 0 = some nd ∧
      nd.has_language_version.map LangVersion.language = ["ja", "en"] ∧
      nd.has_language_version.length = 2 := by
  obtain ⟨nd, h1, _, h3, h4, _⟩ := C6_two_language_versions [⟨"1", none, [], []⟩] [] 0
    ⟨"art_1", "1", "第1条", none, "", "pending", "Article 1 - English translation"⟩
    (by decide)
  exact ⟨nd, h1, h3, h4⟩

theorem applyJaRest_shape (m : EliMetadata) (j : JaDoc) :
    ∃ ln nm, applyJaRest m j = { m with law_number := ln, law_name := nm } := by
  unfold applyJaRest
  rcases j.lawNum with _ | (_ | t) <;> rcases j.lawTitle with _ | (_ | t2) <;>
    simp only [] <;> (repeat' split) <;> exact ⟨_, _, rfl⟩

theorem applyJaLaw_shape (m m1 : EliMetadata) (la : LawAttrs)
    (h : applyJaLaw m la = some m1) :
    ∃ d, m1 = { m with enactment_date := d, valid := d ++ "/9999-12-31" } := by
  unfold applyJaLaw at h
  simp only [] at h
  rcases hy : pyInt? (la.year.getD "25") with _ | y <;> rw [hy] at h
  · exact absurd h (by simp)
  · injection h with h
    exact ⟨_, h.symm⟩

theorem applyEn_shape (strptime : String → Option String) (m : EliMetadata) (e : EnDoc) :
    ∃ le, applyEn strptime m e = { m with law_name_en := le } ∨
      ∃ d, applyEn strptime m e =
        { m with law_name_en := le, enactment_date := d, valid := d ++ "/9999-12-31" } := by
  unfold applyEn
  simp only []
  rcases e.lawTitle with _ | (_ | t) <;>
    rcases e.originalPromulgateDate with _ | od <;>
    simp only [] <;> (repeat' split) <;>
    first
      | exact ⟨_, Or.inl rfl⟩
      | exact ⟨_, Or.inr ⟨_, rfl⟩⟩

theorem validInv_defaults : ValidInv eliDefaults := rfl

theorem validInv_applyJaRest (m : EliMetadata) (j : JaDoc) (h : ValidInv m) :
    ValidInv (applyJaRest m j) := by
  obtain ⟨ln, nm, hsh⟩ := applyJaRest_shape m j
  unfold ValidInv at *
  rw [hsh]
  exact h

theorem validInv_applyJaLaw (m m1 : EliMetadata) (la : LawAttrs)
    (h : applyJaLaw m la = some m1) : ValidInv m1 := by
  obtain ⟨d, hd⟩ := applyJaLaw_shape m m1 la h
  rw [hd]
  rfl

theorem validInv_applyEn (strptime : String → Option String) (m : EliMetadata)
    (e : EnDoc) (h : ValidInv m) : ValidInv (applyEn strptime m e) := by
  obtain ⟨le, hsh | ⟨d, hsh⟩⟩ := applyEn_shape strptime m e
  · unfold ValidInv at *
    rw [hsh]
    exact h
  · unfold ValidInv
    rw [hsh]

theorem validInv_extract (strptime : String → Option String)
    (ja : Option JaDoc) (en : Option EnDoc) :
    ValidInv (extractMetadataFromXml strptime ja en) := by
  have base : ∀ m1 : EliMetadata, ValidInv m1 →
      ValidInv (match en with
        | none => m1
        | some e => applyEn strptime m1 e) := by
    intro m1 h1
    cases en with
    | none => exact h1
    | some e => exact validInv_applyEn strptime m1 e h1
  unfold extractMetadataFromXml
  cases ja with
  | none =>
    simp only []
    exact base _ validInv_defaults
  | some j =>
    cases hl : j.law with
    | none =>
      simp only [hl]
      exact base _ (validInv_applyJaRest _ j validInv_defaults)
    | some la =>
      cases hj : applyJaLaw eliDefaults la with
      | none =>
        simp only [hl, hj]
        exact validInv_defaults
      | some m1 =>
        simp only [hl, hj]
        exact base _ (validInv_applyJaRest _ j (validInv_applyJaLaw _ _ la hj))

theorem date_suffix_ne_empty (s : String) : s ++ "/9999-12-31" ≠ "" := by
  intro h
  have hl : (s ++ "/9999-12-31").length = ("" : String).length := congrArg String.length h
  rw [String.length_append] at hl
  have h1 : ("/9999-12-31" : String).length = 11 := rfl
  have h0 : ("" : String).length = 0 := rfl
  omega

/-- C7: every projected document's `eli:valid` is the document date
followed by `/9999-12-31` (the open-interval sentinel), never the empty
string; in particular an enactment date of `1950-05-02` yields
`1950-05-02/9999-12-31`. -/
theorem C7_valid_interval_formatting (strptime : String → Option String)
    (c : ELIConverter) (jld : JsonLd)
    (h : convertToJsonLd strptime c = some jld) :
    jld.valid = jld.date_document ++ "/9999-12-31" ∧
    jld.valid ≠ "" ∧
    (jld.date_document = "1950-05-02" → jld.valid = "1950-05-02/9999-12-31") := by
  unfold convertToJsonLd at h
  cases hs : c.structured_xml with
  | none =>
    rw [hs] at h
    exact absurd h (by simp)
  | some arts =>
    rw [hs] at h
    injection h with h
    subst h
    have hv := validInv_extract strptime c.japanese_xml c.english_xml
    refine ⟨hv, ?_, ?_⟩
    · show (extractMetadataFromXml strptime c.japanese_xml c.english_xml).valid ≠ ""
      rw [hv]
      exact date_suffix_ne_empty _
    · intro hd
      show (extractMetadataFromXml strptime c.japanese_xml c.english_xml).valid =
        "1950-05-02/9999-12-31"
      rw [hv]
      rw [show (extractMetadataFromXml strptime c.japanese_xml c.english_xml).enactment_date
        = "1950-05-02" from hd]
      rfl

theorem C7_witness :
    jldEx.valid = jldEx.date_document ++ "/9999-12-31" ∧
    jldEx.valid ≠ "" ∧
    jldEx.valid = "1950-05-02/9999-12-31" := by
  have h := C7_valid_interval_formatting (fun _ => none)
    ⟨none, none, some []⟩ jldEx rfl
  exact ⟨h.1, h.2.1, h.2.2 rfl⟩

theorem applyJaRest_law_id (m : EliMetadata) (j : JaDoc) :
    (applyJaRest m j).law_id = m.law_id ∧
    (applyJaRest m j).version = m.version ∧
    (applyJaRest m j).date_version = m.date_version ∧
    (applyJaRest m j).passed_by = m.passed_by ∧
    (applyJaRest m j).publisher = m.publisher ∧
    (applyJaRest m j).document_type = m.document_type := by
  obtain ⟨ln, nm, hsh⟩ := applyJaRest_shape m j
  rw [hsh]
  exact ⟨rfl, rfl, rfl, rfl, rfl, rfl⟩

theorem applyJaLaw_law_id (m m1 : EliMetadata) (la : LawAttrs)
    (h : applyJaLaw m la = some m1) :
    m1.law_id = m.law_id ∧ m1.version = m.version ∧
    m1.date_version = m.date_version ∧ m1.passed_by = m.passed_by ∧
    m1.publisher = m.publisher ∧ m1.document_type = m.document_type := by
  obtain ⟨d, hd⟩ := applyJaLaw_shape m m1 la h
  rw [hd]
  exact ⟨rfl, rfl, rfl, rfl, rfl, rfl⟩

theorem applyEn_law_id (strptime : String → Option String) (m : EliMetadata) (e : EnDoc) :
    (applyEn strptime m e).law_id = m.law_id ∧
    (applyEn strptime m e).version = m.version ∧
    (applyEn strptime m e).date_version = m.date_version ∧
    (applyEn strptime m e).passed_by = m.passed_by ∧
    (applyEn strptime m e).publisher = m.publisher ∧
    (applyEn strptime m e).document_type = m.document_type := by
  obtain ⟨le, hsh | ⟨d, hsh⟩⟩ := applyEn_shape strptime m e <;> rw [hsh] <;>
    exact ⟨rfl, rfl, rfl, rfl, rfl, rfl⟩

/-- C10: metadata extraction for projection is total: it always yields a
fully populated record whose identity fields are the hard-coded Radio Act
constants whatever the input, and an input lacking the expected elements
(or no input at all) is labeled with the full set of Radio Act defaults. -/
theorem C10_hardcoded_defaults (strptime : String → Option String)
    (ja : Option JaDoc) (en : Option EnDoc) :
    ((extractMetadataFromXml strptime ja en).law_id = "325AC0000000131") ∧
    ((extractMetadataFromXml strptime ja en).version = "20240801") ∧
    ((extractMetadataFromXml strptime ja en).date_version = "2024-08-01") ∧
    ((extractMetadataFromXml strptime ja en).passed_by = "National Diet of Japan") ∧
    ((extractMetadataFromXml strptime ja en).publisher =
      "Ministry of Internal Affairs and Communications") ∧
    ((extractMetadataFromXml strptime ja en).document_type = "Act") ∧
    (extractMetadataFromXml strptime none none = eliDefaults) ∧
    (∀ (arts : List SrcArticle) (enArts : List EnSrcArticle),
      extractMetadataFromXml strptime (some ⟨none, none, none, arts⟩)
        (some ⟨none, none, enArts⟩) = eliDefaults) ∧
    (eliDefaults.law_name = "電波法") ∧
    (eliDefaults.law_name_en = "Radio Act") ∧
    (eliDefaults.enactment_date = "1950-05-02") := by
  have hfixed : ∀ m1 : EliMetadata,
      (m1.law_id = eliDefaults.law_id ∧ m1.version = eliDefaults.version ∧
        m1.date_version = eliDefaults.date_version ∧
        m1.passed_by = eliDefaults.passed_by ∧
        m1.publisher = eliDefaults.publisher ∧
        m1.document_type = eliDefaults.document_type) →
      ((match en with
        | none => m1
        | some e => applyEn strptime m1 e).law_id = eliDefaults.law_id ∧
        (match en with
        | none => m1
        | some e => applyEn strptime m1 e).version = eliDefaults.version ∧
        (match en with
        | none => m1
        | some e => applyEn strptime m1 e).date_version = eliDefaults.date_version ∧
        (match en with
        | none => m1
        | some e => applyEn strptime m1 e).passed_by = eliDefaults.passed_by ∧
        (match en with
        | none => m1
        | some e => applyEn strptime m1 e).publisher = eliDefaults.publisher ∧
        (match en with
        | none => m1
        | some e => applyEn strptime m1 e).document_type = eliDefaults.document_type) := by
    intro m1 h1
    cases en with
    | none => exact h1
    | some e =>
      have he := applyEn_law_id strptime m1 e
      exact ⟨he.1.trans h1.1, (he.2.1).trans h1.2.1, (he.2.2.1).trans h1.2.2.1,
        (he.2.2.2.1).trans h1.2.2.2.1, (he.2.2.2.2.1).trans h1.2.2.2.2.1,
        (he.2.2.2.2.2).trans h1.2.2.2.2.2⟩
  have hcore : (extractMetadataFromXml strptime ja en).law_id = eliDefaults.law_id ∧
      (extractMetadataFromXml strptime ja en).version = eliDefaults.version ∧
      (extractMetadataFromXml strptime ja en).date_version = eliDefaults.date_version ∧
      (extractMetadataFromXml strptime ja en).passed_by = eliDefaults.passed_by ∧
      (extractMetadataFromXml strptime ja en).publisher = eliDefaults.publisher ∧
      (extractMetadataFromXml strptime ja en).document_type = eliDefaults.document_type := by
    unfold extractMetadataFromXml
    cases ja with
    | none =>
      simp only []
      exact hfixed eliDefaults ⟨rfl, rfl, rfl, rfl, rfl, rfl⟩
    | some j =>
      cases hl : j.law with
      | none =>
        simp only [hl]
        exact hfixed _ (applyJaRest_law_id eliDefaults j)
      | some la =>
        cases hj : applyJaLaw eliDefaults la with
        | none =>
          simp [hl, hj]
        | some m1 =>
          have ha := applyJaLaw_law_id eliDefaults m1 la hj
          have hr := applyJaRest_law_id m1 j
          simp only [hl, hj]
          exact hfixed _ ⟨hr.1.trans ha.1, (hr.2.1).trans ha.2.1,
            (hr.2.2.1).trans ha.2.2.1, (hr.2.2.2.1).trans ha.2.2.2.1,
            (hr.2.2.2.2.1).trans ha.2.2.2.2.1, (hr.2.2.2.2.2).trans ha.2.2.2.2.2⟩
  exact ⟨hcore.1, hcore.2.1, hcore.2.2.1, hcore.2.2.2.1, hcore.2.2.2.2.1,
    hcore.2.2.2.2.2, rfl, fun _ _ => rfl, rfl, rfl, rfl⟩

end JPRadioAct
